import Mathlib

/-!
Shallow embedding of the coordination core of `pnpm-injected-sync`
(`src/index.js`): the filesystem-backed lock store, the client registry,
the promotion check, the leader reaper, the debounced change watcher,
and the exit-code logic of the process supervisor.

The lock file and the client-list file are each modelled as a tri-state
value: absent (reading raises ENOENT), corrupt (reading succeeds but
`JSON.parse` throws), or holding a parsed value.  Filesystem faults other
than the structural ones (EEXIST on an exclusive create, ENOENT on a read
or unlink) are injected through an explicit `fault` parameter where the
source propagates them.
-/

namespace PnpmSync

/-- A parsed lock record: the JSON object `{ pid, timestamp }` written by
`acquireLock` in `src/index.js`. -/
structure LockRecord where
  pid : Nat
  timestamp : Nat
deriving Repr, DecidableEq

/-- State of the lock file at `.pnpm-injected-sync.lock`: absent, present
but not valid JSON, or holding a parsed record. -/
inductive LockFile where
  | absent : LockFile
  | corrupt : LockFile
  | record : LockRecord → LockFile
deriving Repr, DecidableEq

/-- State of the client-list file at `<lock>.clients`: absent, present but
not valid JSON, or holding a parsed array of pids. -/
inductive CFile where
  | absent : CFile
  | corrupt : CFile
  | list : List Nat → CFile
deriving Repr, DecidableEq

/-- The `err.code` value `'EEXIST'`, encoded as a numeric error code. -/
def eEXIST : Nat := 17

/-- The `err.code` value `'ENOENT'`, encoded as a numeric error code. -/
def eENOENT : Nat := 2

/-- `fs.promises.writeFile(lockFile, ..., { flag: 'wx' })`: exclusive
create-if-absent.  Fails with `eEXIST` when the file exists (even with
corrupt content); `fault` injects any other I/O error, which preempts the
write. -/
def writeFileWx (lf : LockFile) (r : LockRecord) (fault : Option Nat) :
    Except Nat LockFile :=
  match fault with
  | some e => .error e
  | none =>
    match lf with
    | .absent => .ok (.record r)
    | _ => .error eEXIST

/-- `acquireLock(lockFile, pid)` from `src/index.js`: attempt the exclusive
write; `true` on success, `false` when the catch sees `EEXIST`, and any
other error is re-thrown.  Returns the outcome together with the resulting
lock-file state. -/
def acquireLock (lf : LockFile) (pid ts : Nat) (fault : Option Nat) :
    Except Nat (Bool × LockFile) :=
  match writeFileWx lf ⟨pid, ts⟩ fault with
  | .ok lf2 => .ok (true, lf2)
  | .error e => if e = eEXIST then .ok (false, lf) else .error e

/-- `tryPromoteToWatcher(lockFile, pid)` from `src/index.js`.  Reads the
lock file: on ENOENT the catch branch retries acquisition; on a parse
error (`err.code` is not `'ENOENT'`) it returns `false` leaving the file
in place; on a parsed record whose owner is alive it returns `false`;
otherwise it unlinks the stale lock and attempts acquisition.  An error
thrown by the acquisition inside the try block is caught and, unless its
code is ENOENT, collapses to `false`. -/
def tryPromoteToWatcher (lf : LockFile) (isAlive : Nat → Bool)
    (pid ts : Nat) (fault : Option Nat) : Except Nat (Bool × LockFile) :=
  match lf with
  | .corrupt => .ok (false, .corrupt)
  | .absent => acquireLock .absent pid ts fault
  | .record r =>
    if isAlive r.pid then .ok (false, .record r)
    else
      match acquireLock .absent pid ts fault with
      | .ok p => .ok p
      | .error e =>
        if e = eENOENT then acquireLock .absent pid ts fault
        else .ok (false, .absent)

/-- `registerClient(lockFile, pid)` from `src/index.js`: read the client
file (absent or corrupt reads as the fresh empty list), append `pid` if
not already present and persist; when `pid` is already present nothing is
written. -/
def registerClient (cf : CFile) (pid : Nat) : CFile :=
  let clients : List Nat :=
    match cf with
    | .list cs => cs
    | _ => []
  if pid ∈ clients then cf else .list (clients ++ [pid])

/-- `unregisterClient(lockFile, pid)` from `src/index.js`: if the read or
parse fails, return `[]` without touching the file; otherwise filter out
`pid`, write the remainder when non-empty, and unlink the file when the
remainder is empty.  Returns (new file state, returned list). -/
def unregisterClient (cf : CFile) (pid : Nat) : CFile × List Nat :=
  match cf with
  | .list cs =>
    let remaining := cs.filter (fun p => p ≠ pid)
    if remaining.length > 0 then (.list remaining, remaining)
    else (.absent, remaining)
  | _ => (cf, [])

/-- `cleanupStaleClients(lockFile)` from `src/index.js`: if the read or
parse fails, return `[]` without touching the file; otherwise filter by
liveness, and only when the filtered list is shorter than the original
either persist it (non-empty) or unlink the file (empty).  Returns
(new file state, returned alive list). -/
def cleanupStaleClients (cf : CFile) (isAlive : Nat → Bool) :
    CFile × List Nat :=
  match cf with
  | .list cs =>
    let alive := cs.filter isAlive
    if alive.length ≠ cs.length then
      if alive.length > 0 then (.list alive, alive)
      else (.absent, alive)
    else (cf, alive)
  | _ => (cf, [])

/-- The fault-free run of `acquireLock`, used where the surrounding code
calls it without an injected I/O fault: `true` and a fresh record when
the file was absent, `false` leaving the file untouched otherwise. -/
def acquireLockOk (lf : LockFile) (pid ts : Nat) : Bool × LockFile :=
  match lf with
  | .absent => (true, .record ⟨pid, ts⟩)
  | _ => (false, lf)

/-- One operation against the lock store: an acquisition attempt by a
given pid at a given timestamp, or a release (unlink of the lock file). -/
inductive LockOp where
  | acq : Nat → Nat → LockOp
  | rel : LockOp
deriving Repr, DecidableEq

/-- Release = `fs.promises.unlink(lockFile)` with errors ignored:
idempotent removal. -/
def releaseLock (_lf : LockFile) : LockFile := .absent

/-- Run a sequence of lock-store operations; returns the final lock-file
state and the list of boolean results of the acquisition attempts, in
order. -/
def runLockOps : List LockOp → LockFile → LockFile × List Bool
  | [], lf => (lf, [])
  | .rel :: ops, lf => runLockOps ops (releaseLock lf)
  | .acq pid ts :: ops, lf =>
    let a := acquireLockOk lf pid ts
    let r := runLockOps ops a.2
    (r.1, a.1 :: r.2)

/-- All lock-file states reached while running a sequence of lock-store
operations, the initial state included. -/
def runLockOpsStates : List LockOp → LockFile → List LockFile
  | [], lf => [lf]
  | .rel :: ops, lf => lf :: runLockOpsStates ops (releaseLock lf)
  | .acq pid ts :: ops, lf => lf :: runLockOpsStates ops (acquireLockOk lf pid ts).2

/-- Number of lock records a lock-file state holds (the file is a single
path, so this is 0 or 1). -/
def lockCount : LockFile → Nat
  | .record _ => 1
  | _ => 0

/-- In-memory `state` of the watcher runtime (`startWatcherMode`): the
keys of the `watchers` map, the keys of the `debounceTimers` map, and
whether the reaper `checkInterval` is armed. -/
structure WatchState where
  watchers : List Nat
  debounceTimers : List (Nat × Nat)
  checkIntervalArmed : Bool
deriving Repr, DecidableEq

/-- The shared teardown file block
`try { unlink(lockFile); unlink(clientFile) } catch {}`: if the lock
unlink throws (file absent) the client unlink is skipped; an error on the
client unlink is swallowed after the lock is gone. -/
def teardownFiles (lf : LockFile) (cf : CFile) : LockFile × CFile :=
  match lf with
  | .absent => (.absent, cf)
  | _ => (.absent, .absent)

/-- One tick of the reaper interval in `startWatcherMode`
(`src/index.js`, the `setInterval` body): prune stale clients; if the
supervised child has not exited, do nothing more; otherwise, if no alive
client remains, clear the interval, the debounce timers and the watchers,
remove the lock and client files, and exit with code 0.  Returns the new
lock file, client file, watch state, and `some code` when the tick calls
`process.exit code`. -/
def reaperTick (lf : LockFile) (cf : CFile) (st : WatchState)
    (isAlive : Nat → Bool) (childExited : Bool) :
    LockFile × CFile × WatchState × Option Int :=
  let pr := cleanupStaleClients cf isAlive
  if !childExited then (lf, pr.1, st, none)
  else if pr.2.isEmpty then
    let t := teardownFiles lf pr.1
    (t.1, t.2, ⟨[], [], false⟩, some 0)
  else (lf, pr.1, st, none)

/-- A filesystem change event delivered to the `fs.watch` callback of
`setupWatcher`: its arrival time (ms), the watched directory, and the
reported filename.  The debounce key is `(dir, name)`
(`${pkgDir}:${filename}` in the source). -/
structure ChangeEvent where
  time : Nat
  dir : Nat
  name : Nat
deriving Repr, DecidableEq

/-- The events whose debounce timer fires, for a chronologically ordered
event list.  This embeds the handler of `setupWatcher`: each event clears
any pending timer for its key and arms a fresh 100 ms timer, so the timer
armed by an event fires iff no later event with the same key arrives
strictly before the 100 ms elapse.  Each fire invokes `syncDeps` once for
the event's directory. -/
def debounceFires : List ChangeEvent → List ChangeEvent
  | [] => []
  | e :: rest =>
    if rest.any (fun e2 =>
        (e2.dir == e.dir && e2.name == e.name) && decide (e2.time < e.time + 100))
    then debounceFires rest
    else e :: debounceFires rest

/-- Number of `syncDeps` invocations for directory `d` produced by a
chronologically ordered event list. -/
def syncCalls (es : List ChangeEvent) (d : Nat) : Nat :=
  ((debounceFires es).filter (fun e => e.dir == d)).length

/-- `value.toLowerCase()`: lower-case every character, written over the
character list so that it evaluates inside proofs. -/
def lowerString (s : String) : String := ⟨s.data.map Char.toLower⟩

/-- `isSyncDisabled()` from `src/index.js`: the environment value of
`PNPM_INJECTED_SYNC_DISABLED` (`none` when unset); a falsy value (unset
or empty) reads as not disabled, otherwise compare the lower-cased value
against the accepted truthy spellings. -/
def isSyncDisabled (value : Option String) : Bool :=
  match value with
  | none => false
  | some v =>
    if v == "" then false
    else
      let normalized := lowerString v
      normalized == "true" || normalized == "1" || normalized == "yes" ||
        normalized == "on"

/-- Role the invocation ends the startup phase with: leader (watcher),
registered client, or coordination switched off by the disable flag. -/
inductive Role where
  | leader : Role
  | client : Role
  | off : Role
deriving Repr, DecidableEq

/-- Outcome of the startup coordination phase of `runCommand`: the role,
the resulting lock and client files, the watcher state when watcher mode
started, and whether the promotion-check interval was armed. -/
structure ElectionResult where
  role : Role
  lock : LockFile
  clients : CFile
  watchSt : Option WatchState
  promotionArmed : Bool
deriving Repr, DecidableEq

/-- The startup part of `startWatcherMode` (`src/index.js`): with no
injected-dependency directories it unlinks the lock file and throws
(modelled by the `none` watch state); otherwise it registers the leader
itself as a client, creates one watcher per directory and arms the
reaper interval. -/
def startWatcherInit (lf : LockFile) (cf : CFile) (pid : Nat)
    (deps : List Nat) : LockFile × CFile × Option WatchState :=
  if deps.isEmpty then (.absent, cf, none)
  else (lf, registerClient cf pid, some ⟨deps, [], true⟩)

/-- The coordination phase of `runCommand` (`src/index.js`): skipped
entirely when syncing is disabled; otherwise try to acquire the lock; on
success start watcher mode, falling back to the client path (register +
promotion interval) when watcher mode throws; on failure take the client
path directly. -/
def electionPhase (env : Option String) (lf : LockFile) (cf : CFile)
    (pid ts : Nat) (deps : List Nat) : ElectionResult :=
  if isSyncDisabled env then ⟨.off, lf, cf, none, false⟩
  else
    let a := acquireLockOk lf pid ts
    if a.1 then
      let s := startWatcherInit a.2 cf pid deps
      match s.2.2 with
      | some st => ⟨.leader, s.1, s.2.1, some st, false⟩
      | none => ⟨.client, s.1, registerClient s.2.1 pid, none, true⟩
    else ⟨.client, a.2, registerClient cf pid, none, true⟩

/-- `process.exit(code || 0)` in the child `exit` handler: a null exit
code (child killed by a signal) and the code 0 both exit with 0, any
other reported code is passed through. -/
def exitCodeOnChildExit (code : Option Int) : Int :=
  match code with
  | none => 0
  | some c => if c = 0 then 0 else c

/-- The signals forwarded by `runCommand`. -/
inductive Sig where
  | sigint : Sig
  | sigterm : Sig
  | sighup : Sig
deriving Repr, DecidableEq

/-- The signal-derived exit code of the forced-exit fallback
(`signal === 'SIGINT' ? 130 : signal === 'SIGTERM' ? 143 : 129`). -/
def signalFallbackCode : Sig → Int
  | .sigint => 130
  | .sigterm => 143
  | .sighup => 129

/-- `process.exit(childExitCode ?? signalExitCode)` in the forced-exit
timeout armed by the signal handler: the child's already-known exit code
when available, else the signal-derived fallback. -/
def forcedExitCode (childCode : Option Int) (sig : Sig) : Int :=
  match childCode with
  | some c => c
  | none => signalFallbackCode sig

/-- `process.exit(1)` when no pnpm workspace is found (`runCommand`). -/
def exitCodeNoWorkspace : Int := 1

/-- `process.exit(1)` in the child `error` handler (spawn failure). -/
def exitCodeSpawnFailure : Int := 1

/-- The child `exit` handler of `runCommand` when no signal was received
first: unregister this pid from the client registry, then, when this
invocation is the watcher (with a live watcher state), run the watcher
teardown including the lock/client file removal; exit with
`code || 0`.  Returns the final lock file, client file and exit code. -/
def childExitPath (lf : LockFile) (cf : CFile) (pid : Nat)
    (isWatcher : Bool) (code : Option Int) : LockFile × CFile × Int :=
  let u := unregisterClient cf pid
  if isWatcher then
    let t := teardownFiles lf u.1
    (t.1, t.2, exitCodeOnChildExit code)
  else (lf, u.1, exitCodeOnChildExit code)

/-- End-to-end file effect of a `runCommand` invocation whose child exits
normally (no signal): the coordination phase followed by the child-exit
handler. -/
def runCommandChildExit (env : Option String) (lf : LockFile) (cf : CFile)
    (pid ts : Nat) (deps : List Nat) (code : Option Int) :
    LockFile × CFile × Int :=
  let er := electionPhase env lf cf pid ts deps
  childExitPath er.lock er.clients pid er.watchSt.isSome code

/-- The read pattern shared by the registry operations: the parsed client
list, with an absent or corrupt file reading as the empty list. -/
def clientsView (cf : CFile) : List Nat :=
  match cf with
  | .list cs => cs
  | _ => []

/-- Filtering out an element that is not in the list leaves it unchanged. -/
theorem filter_ne_of_not_mem (cs : List Nat) (pid : Nat) (h : pid ∉ cs) :
    cs.filter (fun p => p ≠ pid) = cs := by
  apply List.filter_eq_self.mpr
  intro a ha
  simp only [ne_eq, decide_eq_true_eq]
  exact fun hc => h (hc ▸ ha)

/-- Claim C10: when the client-list file is missing or its content is
unparsable, `unregisterClient` returns the empty list and performs no
write and no delete — a corrupt client-list file is left in place even
though the caller is told that no clients remain. -/
theorem c10_unregister_missing_or_corrupt :
    ∀ pid : Nat,
      unregisterClient CFile.absent pid = (CFile.absent, []) ∧
      unregisterClient CFile.corrupt pid = (CFile.corrupt, []) := by
  intro pid
  exact ⟨rfl, rfl⟩

/-- Claim C8: the supervisor exit code is the child's own code propagated
unchanged when reported; 1 on spawn failure or missing workspace; and the
signal-derived fallback 130/143/129 when the forced exit fires before the
child reported a code, or the child's already-known code when it did. -/
theorem c8_exit_codes :
    (∀ c : Int, exitCodeOnChildExit (some c) = c) ∧
    exitCodeSpawnFailure = 1 ∧
    exitCodeNoWorkspace = 1 ∧
    forcedExitCode none .sigint = 130 ∧
    forcedExitCode none .sigterm = 143 ∧
    forcedExitCode none .sighup = 129 ∧
    (∀ (c : Int) (sig : Sig), forcedExitCode (some c) sig = c) := by
  refine ⟨?_, rfl, rfl, rfl, rfl, rfl, fun c sig => rfl⟩
  intro c
  by_cases h : c = 0 <;> simp [exitCodeOnChildExit, h]

/-- Claim C4, counterexample: with the prior state a client file already
listing pid 7, registering 7 is a no-op and unregistering 7 deletes the
file, so the round trip does not restore the prior state. -/
theorem c4_counterexample :
    (unregisterClient (registerClient (CFile.list [7]) 7) 7).1 ≠
      CFile.list [7] := by decide

/-- Claim C4 as amended: the register/unregister round trip restores the
parsed client list (absent or corrupt reading as empty) provided the
identifier was not already a member; and unregistering a sole member
deletes the backing file and returns the empty list. -/
theorem c4_register_unregister_roundtrip :
    (∀ (cf : CFile) (pid : Nat), pid ∉ clientsView cf →
      clientsView (unregisterClient (registerClient cf pid) pid).1 =
        clientsView cf) ∧
    (∀ pid : Nat,
      unregisterClient (CFile.list [pid]) pid = (CFile.absent, [])) := by
  constructor
  · intro cf pid hmem
    cases cf with
    | absent => simp [registerClient, unregisterClient, clientsView]
    | corrupt => simp [registerClient, unregisterClient, clientsView]
    | list cs =>
      simp only [clientsView] at hmem ⊢
      rw [registerClient]
      simp only [hmem, if_false]
      rw [unregisterClient]
      simp only [List.filter_append, filter_ne_of_not_mem cs pid hmem]
      simp [clientsView]
      cases cs with
      | nil => simp [clientsView]
      | cons a l => simp [clientsView]
  · intro pid
    simp [unregisterClient]

/-- Claim C6, counterexample: pruning a stored empty client set leaves
the backing file in place (the source only writes or unlinks when the
filtered list is shorter), while the claim requires deletion whenever the
filtered subset is empty. -/
theorem c6_counterexample :
    (cleanupStaleClients (CFile.list []) (fun _ => false)).1 =
        CFile.list [] ∧
      CFile.list [] ≠ CFile.absent := by decide

/-- Claim C6 as amended: pruning a stored client set returns exactly the
alive subset; the file afterwards holds that subset, except that the file
is deleted when the subset is empty and the stored set was non-empty,
and a stored set that was already all-alive (in particular the stored
empty set) is left untouched. -/
theorem c6_prune_dead :
    ∀ (cs : List Nat) (isAlive : Nat → Bool),
      cleanupStaleClients (CFile.list cs) isAlive =
        (if (cs.filter isAlive).isEmpty && !cs.isEmpty then CFile.absent
          else CFile.list (cs.filter isAlive),
         cs.filter isAlive) := by
  intro cs isAlive
  rw [cleanupStaleClients]
  by_cases hlen : (cs.filter isAlive).length = cs.length
  · have heq : cs.filter isAlive = cs :=
      (List.filter_sublist cs).eq_of_length hlen
    simp only [hlen, ne_eq, not_true_eq_false, if_false, heq]
    cases cs with
    | nil => simp
    | cons a l => simp
  · have hne : cs ≠ [] := by
      intro h
      subst h
      simp at hlen
    by_cases hpos : (cs.filter isAlive).length > 0
    · have hfne : cs.filter isAlive ≠ [] := by
        intro h
        rw [h] at hpos
        simp at hpos
      simp [hlen, hpos, hfne]
    · have hf : cs.filter isAlive = [] := by
        cases hfe : cs.filter isAlive with
        | nil => rfl
        | cons a l =>
          rw [hfe] at hpos
          simp at hpos
      simp [hlen, hpos, hf, hne]
      exact fun h => hne (List.length_eq_zero.mp h.symm)

/-- Witness for claim C4: the round trip at a concrete state where pid 5
is not yet registered, and sole-member deletion at pid 9. -/
theorem c4_register_unregister_roundtrip_witness :
    clientsView (unregisterClient (registerClient (CFile.list [3]) 5) 5).1 =
        clientsView (CFile.list [3]) ∧
      unregisterClient (CFile.list [9]) 9 = (CFile.absent, []) :=
  ⟨c4_register_unregister_roundtrip.1 (CFile.list [3]) 5 (by decide),
   c4_register_unregister_roundtrip.2 9⟩

/-- Fault-free acquisition agrees with `acquireLockOk`. -/
theorem acquireLock_fault_free (lf : LockFile) (pid ts : Nat) :
    acquireLock lf pid ts none = .ok (acquireLockOk lf pid ts) := by
  cases lf <;> rfl

/-- Acquisition attempts against a held lock all fail and leave the
record in place. -/
theorem runLockOps_acq_held (r : LockRecord) :
    ∀ ps : List (Nat × Nat),
      (runLockOps (ps.map fun p => LockOp.acq p.1 p.2) (.record r)).2.count
        true = 0 := by
  intro ps
  induction ps with
  | nil => rfl
  | cons p ps ih =>
    simp only [List.map_cons, runLockOps, acquireLockOk]
    rw [List.count_cons]
    simp [ih]

/-- Claim C1: across any sequence of acquire and release operations at
most one lock record exists at any reached state; among acquire attempts
made from the empty store before any succeeds, exactly one (the first)
returns true; and a single acquisition returns true iff the file was
absent and this call created it, false when it already exists, and
propagates any other I/O error. -/
theorem c1_lock_mutual_exclusion :
    (∀ (ops : List LockOp) (lf0 : LockFile),
      ∀ s ∈ runLockOpsStates ops lf0, lockCount s ≤ 1) ∧
    (∀ ps : List (Nat × Nat), ps ≠ [] → (ps.map Prod.fst).Nodup →
      (runLockOps (ps.map fun p => LockOp.acq p.1 p.2) .absent).2.count
        true = 1) ∧
    (∀ pid ts : Nat,
      acquireLock .absent pid ts none = .ok (true, .record ⟨pid, ts⟩)) ∧
    (∀ (lf : LockFile) (pid ts : Nat), lf ≠ .absent →
      acquireLock lf pid ts none = .ok (false, lf)) ∧
    (∀ (lf : LockFile) (pid ts e : Nat), e ≠ eEXIST →
      acquireLock lf pid ts (some e) = .error e) := by
  refine ⟨?_, ?_, fun pid ts => rfl, ?_, ?_⟩
  · intro ops lf0 s _hs
    cases s <;> simp [lockCount]
  · intro ps hne _hnodup
    cases ps with
    | nil => exact absurd rfl hne
    | cons p ps =>
      simp only [List.map_cons, runLockOps, acquireLockOk]
      rw [List.count_cons]
      simp [runLockOps_acq_held]
  · intro lf pid ts h
    cases lf with
    | absent => exact absurd rfl h
    | corrupt => rfl
    | record r => rfl
  · intro lf pid ts e he
    simp [acquireLock, writeFileWx, he]

/-- Witness for claim C1: the invariant at the states of a release run,
two racing acquisitions from the empty store with exactly one winner, a
failing acquisition on an existing lock, and a propagated fault. -/
theorem c1_lock_mutual_exclusion_witness :
    lockCount LockFile.absent ≤ 1 ∧
    (runLockOps ([(1, 0), (2, 0)].map fun p => LockOp.acq p.1 p.2)
        .absent).2.count true = 1 ∧
    acquireLock .corrupt 5 9 none = .ok (false, .corrupt) ∧
    acquireLock .absent 5 9 (some 3) = .error 3 :=
  ⟨c1_lock_mutual_exclusion.1 [LockOp.rel] .absent .absent (by decide),
   c1_lock_mutual_exclusion.2.1 [(1, 0), (2, 0)] (by decide) (by decide),
   c1_lock_mutual_exclusion.2.2.2.1 .corrupt 5 9 (by decide),
   c1_lock_mutual_exclusion.2.2.2.2 .absent 5 9 3 (by decide)⟩

/-- Claim C2: while the supervised child has not exited a reaper tick
only prunes, and never tears anything down or exits, whatever the client
count; once the child has exited and the pruned client list is empty, the
tick clears the watchers, timers and interval, removes the client and
lock files, and exits with code 0. -/
theorem c2_reaper_waits_for_child :
    (∀ (lf : LockFile) (cf : CFile) (st : WatchState)
        (isAlive : Nat → Bool),
      reaperTick lf cf st isAlive false =
        (lf, (cleanupStaleClients cf isAlive).1, st, none)) ∧
    (∀ (lf : LockFile) (cf : CFile) (st : WatchState)
        (isAlive : Nat → Bool),
      lf ≠ .absent → (cleanupStaleClients cf isAlive).2 = [] →
      reaperTick lf cf st isAlive true =
        (.absent, .absent, ⟨[], [], false⟩, some 0)) := by
  constructor
  · intro lf cf st isAlive
    rfl
  · intro lf cf st isAlive hlf hpruned
    rw [reaperTick]
    simp only [Bool.not_true, Bool.false_eq_true, if_false, hpruned,
      List.isEmpty_nil, if_true]
    cases lf with
    | absent => exact absurd rfl hlf
    | corrupt => rfl
    | record r => rfl

/-- Witness for claim C2: a live-child tick with zero remaining clients
takes no action, and a dead-child tick with no alive clients tears down
and exits 0. -/
theorem c2_reaper_waits_for_child_witness :
    reaperTick (.record ⟨1, 0⟩) (.list [3]) ⟨[4], [(1, 2)], true⟩
        (fun _ => false) false =
      (.record ⟨1, 0⟩, .absent, ⟨[4], [(1, 2)], true⟩, none) ∧
    reaperTick (.record ⟨1, 0⟩) (.list [3]) ⟨[4], [(1, 2)], true⟩
        (fun _ => false) true =
      (.absent, .absent, ⟨[], [], false⟩, some 0) :=
  ⟨c2_reaper_waits_for_child.1 (.record ⟨1, 0⟩) (.list [3])
      ⟨[4], [(1, 2)], true⟩ (fun _ => false),
   c2_reaper_waits_for_child.2 (.record ⟨1, 0⟩) (.list [3])
      ⟨[4], [(1, 2)], true⟩ (fun _ => false) (by decide) rfl⟩

/-- Claim C3, counterexample: on a lock file with unparsable content the
promotion attempt returns false and leaves the corrupt file in place,
whereas treating the record as absent would acquire the lock (as the
absent case shows); promotion therefore stays blocked while the
unparsable record persists. -/
theorem c3_counterexample :
    tryPromoteToWatcher LockFile.corrupt (fun _ => false) 42 7 none =
        .ok (false, LockFile.corrupt) ∧
      tryPromoteToWatcher LockFile.absent (fun _ => false) 42 7 none =
        .ok (true, .record ⟨42, 7⟩) :=
  ⟨rfl, rfl⟩

/-- Claim C3 as amended: a promotion attempt on an unparsable lock record
is never surfaced as an error — it returns false leaving the file
unchanged — but it does not treat the record as absent: only an absent
lock file or a dead recorded owner leads to an acquisition attempt, so
promotion stays blocked while the unparsable record persists. -/
theorem c3_promotion_on_corrupt :
    (∀ (isAlive : Nat → Bool) (pid ts : Nat),
      tryPromoteToWatcher .corrupt isAlive pid ts none =
        .ok (false, .corrupt)) ∧
    (∀ (lf : LockFile) (isAlive : Nat → Bool) (pid ts e : Nat),
      tryPromoteToWatcher lf isAlive pid ts none ≠ .error e) ∧
    (∀ (isAlive : Nat → Bool) (pid ts : Nat),
      tryPromoteToWatcher .absent isAlive pid ts none =
        .ok (true, .record ⟨pid, ts⟩)) ∧
    (∀ (r : LockRecord) (isAlive : Nat → Bool) (pid ts : Nat),
      isAlive r.pid = false →
      tryPromoteToWatcher (.record r) isAlive pid ts none =
        .ok (true, .record ⟨pid, ts⟩)) := by
  refine ⟨fun isAlive pid ts => rfl, ?_, fun isAlive pid ts => rfl, ?_⟩
  · intro lf isAlive pid ts e
    cases lf with
    | absent => simp [tryPromoteToWatcher, acquireLock, writeFileWx]
    | corrupt => simp [tryPromoteToWatcher]
    | record r =>
      by_cases h : isAlive r.pid <;>
        simp [tryPromoteToWatcher, h, acquireLock, writeFileWx]
  · intro r isAlive pid ts h
    simp [tryPromoteToWatcher, h, acquireLock, writeFileWx]

/-- Witness for claim C3: a dead recorded owner is cleaned up and the
lock acquired. -/
theorem c3_promotion_on_corrupt_witness :
    tryPromoteToWatcher (.record ⟨8, 1⟩) (fun _ => false) 42 7 none =
      .ok (true, .record ⟨42, 7⟩) :=
  c3_promotion_on_corrupt.2.2.2 ⟨8, 1⟩ (fun _ => false) 42 7 rfl

/-- Claim C7: when acquisition succeeds but watcher mode fails to start
(no directories to watch), the lock is released and the invocation takes
the client path — registration plus the promotion interval — with role,
registry effect, watcher state and promotion timer identical to the
outcome of a failed initial acquisition. -/
theorem c7_watcher_start_failure_falls_back :
    ∀ (env : Option String) (cf : CFile) (pid ts : Nat) (r : LockRecord)
      (deps2 : List Nat),
      isSyncDisabled env = false →
      electionPhase env .absent cf pid ts [] =
        ⟨.client, .absent, registerClient cf pid, none, true⟩ ∧
      electionPhase env (.record r) cf pid ts deps2 =
        ⟨.client, .record r, registerClient cf pid, none, true⟩ := by
  intro env cf pid ts r deps2 hdis
  constructor
  · rw [electionPhase]
    simp [hdis, acquireLockOk, startWatcherInit]
  · rw [electionPhase]
    simp [hdis, acquireLockOk]

/-- Witness for claim C7: with the flag unset, an empty dependency list
after a successful acquisition ends in the same client-path outcome as a
failed acquisition. -/
theorem c7_watcher_start_failure_falls_back_witness :
    electionPhase none .absent .absent 5 11 [] =
        ⟨.client, .absent, .list [5], none, true⟩ ∧
      electionPhase none (.record ⟨9, 0⟩) .absent 5 11 [7] =
        ⟨.client, .record ⟨9, 0⟩, .list [5], none, true⟩ :=
  c7_watcher_start_failure_falls_back none .absent 5 11 ⟨9, 0⟩ [7] rfl

/-- Claim C9, counterexample: with the disable flag set to "1" the lock
is indeed never taken, but the exit handler still runs the client
unregistration, so a pre-existing client file listing this invocation's
pid (42) is deleted by the run — the client file is touched despite the
flag. -/
theorem c9_counterexample :
    isSyncDisabled (some "1") = true ∧
    runCommandChildExit (some "1") .absent (.list [42]) 42 0 [] (some 0) =
      (.absent, .absent, 0) ∧
    CFile.list [42] ≠ CFile.absent := by
  refine ⟨by decide, by decide, by decide⟩

/-- Claim C9 as amended: every truthy spelling of the flag (true/1/yes/on
in any case) disables coordination: no lock acquisition, registration or
watch setup happens and the child's reported exit code is returned
unchanged; the lock file is never touched, and the client file is only
touched by the exit-time unregistration, which is a no-op whenever the
pre-existing client file does not parse to a list containing this pid
(and is not a stored empty list). -/
theorem c9_disabled_run :
    (∀ v : String,
      (lowerString v = "true" ∨ lowerString v = "1" ∨
        lowerString v = "yes" ∨ lowerString v = "on") →
      isSyncDisabled (some v) = true) ∧
    (∀ (env : Option String) (lf : LockFile) (cf : CFile) (pid ts : Nat)
        (deps : List Nat) (code : Option Int),
      isSyncDisabled env = true →
      pid ∉ clientsView cf → cf ≠ CFile.list [] →
      runCommandChildExit env lf cf pid ts deps code =
        (lf, cf, exitCodeOnChildExit code)) ∧
    (∀ c : Int, exitCodeOnChildExit (some c) = c) := by
  refine ⟨?_, ?_, ?_⟩
  · intro v hv
    have hne : v ≠ "" := by
      intro h
      subst h
      rcases hv with h | h | h | h <;> exact absurd h (by decide)
    rw [isSyncDisabled]
    simp only [beq_iff_eq, hne, if_false]
    rcases hv with h | h | h | h <;> simp [h]
  · intro env lf cf pid ts deps code hdis hmem hne
    rw [runCommandChildExit, electionPhase]
    simp only [hdis, if_true]
    rw [childExitPath]
    simp only [Option.isSome_none, Bool.false_eq_true, if_false]
    have hu : (unregisterClient cf pid).1 = cf := by
      cases cf with
      | absent => rfl
      | corrupt => rfl
      | list cs =>
        simp only [clientsView] at hmem
        have hcs : cs ≠ [] := fun h => hne (by rw [h])
        rw [unregisterClient]
        simp only [filter_ne_of_not_mem cs pid hmem]
        have : cs.length > 0 := List.length_pos.mpr hcs
        simp [this]
    rw [hu]
  · intro c
    by_cases h : c = 0 <;> simp [exitCodeOnChildExit, h]

/-- Witness for claim C9: an upper-case truthy spelling disables the run
and the files survive unchanged with the child's code propagated. -/
theorem c9_disabled_run_witness :
    isSyncDisabled (some "TRUE") = true ∧
    runCommandChildExit (some "TRUE") (.record ⟨9, 9⟩) .corrupt 1 0 [4]
        (some 5) =
      (.record ⟨9, 9⟩, .corrupt, 5) ∧
    exitCodeOnChildExit (some 5) = 5 :=
  ⟨c9_disabled_run.1 "TRUE" (Or.inl (by decide)),
   c9_disabled_run.2.1 (some "TRUE") (.record ⟨9, 9⟩) .corrupt 1 0 [4]
      (some 5) (c9_disabled_run.1 "TRUE" (Or.inl (by decide))) (by decide)
      (by decide),
   c9_disabled_run.2.2 5⟩

/-- One step of `debounceFires` on a cons cell. -/
theorem debounceFires_cons (e : ChangeEvent) (rest : List ChangeEvent) :
    debounceFires (e :: rest) =
      if (rest.any fun x =>
          (x.dir == e.dir && x.name == e.name) &&
            decide (x.time < e.time + 100)) = true
      then debounceFires rest
      else e :: debounceFires rest := rfl

/-- With a later same-key event inside the quiet period, the head's
timer is cleared. -/
theorem debounceFires_cons_true {e : ChangeEvent} {rest : List ChangeEvent}
    (h : (rest.any fun x =>
        (x.dir == e.dir && x.name == e.name) &&
          decide (x.time < e.time + 100)) = true) :
    debounceFires (e :: rest) = debounceFires rest := by
  rw [debounceFires_cons]
  simp [h]

/-- With no later same-key event inside the quiet period, the head
fires. -/
theorem debounceFires_cons_false {e : ChangeEvent}
    {rest : List ChangeEvent}
    (h : (rest.any fun x =>
        (x.dir == e.dir && x.name == e.name) &&
          decide (x.time < e.time + 100)) = false) :
    debounceFires (e :: rest) = e :: debounceFires rest := by
  rw [debounceFires_cons]
  simp [h]

/-- In a burst where each event arrives within the quiet period of its
predecessor and all events share one key, every timer but the last is
cleared, so only the last event fires. -/
theorem debounceFires_burst (d m : Nat) :
    ∀ (es : List ChangeEvent) (h : es ≠ []),
      (∀ e ∈ es, e.dir = d ∧ e.name = m) →
      es.Chain' (fun a b => b.time < a.time + 100) →
      debounceFires es = [es.getLast h] := by
  intro es
  induction es with
  | nil => intro h; exact absurd rfl h
  | cons e tail ih =>
    intro h hkey hchain
    cases tail with
    | nil => simp [debounceFires]
    | cons e2 rest =>
      rw [List.chain'_cons] at hchain
      have hke := hkey e (List.mem_cons_self e _)
      have hke2 := hkey e2 (List.mem_cons_of_mem e (List.mem_cons_self e2 _))
      have hany : ((e2 :: rest).any fun x =>
          (x.dir == e.dir && x.name == e.name) &&
            decide (x.time < e.time + 100)) = true := by
        simp only [List.any_cons, Bool.or_eq_true]
        left
        simp [hke.1, hke.2, hke2.1, hke2.2, hchain.1]
      have hrec := ih (List.cons_ne_nil e2 rest)
        (fun x hx => hkey x (List.mem_cons_of_mem e hx)) hchain.2
      rw [debounceFires_cons_true hany, hrec,
        List.getLast_cons (List.cons_ne_nil e2 rest)]

/-- A chain of inter-arrival gaps of at least the quiet period gives the
same bound pairwise. -/
theorem pairwise_of_chain_gap :
    ∀ es : List ChangeEvent,
      es.Chain' (fun a b => a.time + 100 ≤ b.time) →
      es.Pairwise (fun a b => a.time + 100 ≤ b.time) := by
  intro es
  induction es with
  | nil => intro _; exact List.Pairwise.nil
  | cons e tail ih =>
    intro hc
    cases tail with
    | nil => simp
    | cons e2 rest =>
      rw [List.chain'_cons] at hc
      refine List.pairwise_cons.mpr ⟨?_, ih hc.2⟩
      intro b hb
      rcases List.mem_cons.mp hb with hbe | hbr
      · subst hbe
        exact hc.1
      · have h2 := (List.pairwise_cons.mp (ih hc.2)).1 b hbr
        have h1 := hc.1
        omega

/-- When every later event arrives at least the quiet period after each
earlier one, no timer is ever cleared and every event fires. -/
theorem debounceFires_spaced :
    ∀ es : List ChangeEvent,
      es.Pairwise (fun a b => a.time + 100 ≤ b.time) →
      debounceFires es = es := by
  intro es
  induction es with
  | nil => intro _; rfl
  | cons e tail ih =>
    intro hp
    rw [List.pairwise_cons] at hp
    have hany : (tail.any fun x =>
        (x.dir == e.dir && x.name == e.name) &&
          decide (x.time < e.time + 100)) = false := by
      rw [List.any_eq_false]
      intro x hx
      have hgap := hp.1 x hx
      simp only [Bool.and_eq_true, beq_iff_eq, decide_eq_true_eq, not_and]
      intro _ hlt
      omega
    rw [debounceFires_cons_false hany, ih hp.2]

/-- Restricting the later events to those with the key of `e` does not
change whether the timer of `e` gets cleared: only same-key events can
clear it. -/
theorem any_cancel_filter (d m : Nat) (e : ChangeEvent)
    (hd : e.dir = d) (hm : e.name = m) (rest : List ChangeEvent) :
    ((rest.filter fun x => x.dir == d && x.name == m).any fun x =>
        (x.dir == e.dir && x.name == e.name) &&
          decide (x.time < e.time + 100)) =
      (rest.any fun x =>
        (x.dir == e.dir && x.name == e.name) &&
          decide (x.time < e.time + 100)) := by
  apply Bool.eq_iff_iff.mpr
  simp only [List.any_eq_true, List.mem_filter, Bool.and_eq_true,
    beq_iff_eq, decide_eq_true_eq]
  constructor
  · rintro ⟨x, ⟨hx, _⟩, hcond⟩
    exact ⟨x, hx, hcond⟩
  · rintro ⟨x, hx, hcond⟩
    exact ⟨x, ⟨hx, hcond.1.1.trans hd, hcond.1.2.trans hm⟩, hcond⟩

/-- Distinct keys debounce independently: the fires carrying a given key
are exactly the fires of the events with that key alone. -/
theorem debounceFires_filter_key (d m : Nat) :
    ∀ es : List ChangeEvent,
      (debounceFires es).filter (fun e => e.dir == d && e.name == m) =
        debounceFires (es.filter fun e => e.dir == d && e.name == m) := by
  intro es
  induction es with
  | nil => rfl
  | cons e rest ih =>
    cases hPe : (e.dir == d && e.name == m) with
    | true =>
      have he : e.dir = d ∧ e.name = m := by simpa using hPe
      have hfc : (e :: rest).filter (fun x => x.dir == d && x.name == m) =
          e :: rest.filter (fun x => x.dir == d && x.name == m) := by
        simp [List.filter_cons, hPe]
      cases hC : rest.any (fun x =>
          (x.dir == e.dir && x.name == e.name) &&
            decide (x.time < e.time + 100)) with
      | true =>
        have hC2 : ((rest.filter fun x => x.dir == d && x.name == m).any
            fun x => (x.dir == e.dir && x.name == e.name) &&
              decide (x.time < e.time + 100)) = true := by
          rw [any_cancel_filter d m e he.1 he.2 rest]
          exact hC
        rw [debounceFires_cons_true hC, ih, hfc,
          debounceFires_cons_true hC2]
      | false =>
        have hC2 : ((rest.filter fun x => x.dir == d && x.name == m).any
            fun x => (x.dir == e.dir && x.name == e.name) &&
              decide (x.time < e.time + 100)) = false := by
          rw [any_cancel_filter d m e he.1 he.2 rest]
          exact hC
        rw [debounceFires_cons_false hC, hfc,
          debounceFires_cons_false hC2, List.filter_cons, hPe]
        simp only [if_true]
        rw [ih]
    | false =>
      have hfc : (e :: rest).filter (fun x => x.dir == d && x.name == m) =
          rest.filter (fun x => x.dir == d && x.name == m) := by
        simp [List.filter_cons, hPe]
      cases hC : rest.any (fun x =>
          (x.dir == e.dir && x.name == e.name) &&
            decide (x.time < e.time + 100)) with
      | true =>
        rw [debounceFires_cons_true hC, hfc]
        exact ih
      | false =>
        rw [debounceFires_cons_false hC, hfc, List.filter_cons, hPe]
        simp only [Bool.false_eq_true, if_false]
        exact ih

/-- Claim C5: each change event resets the 100 ms quiet-period timer of
its `(directory, entry)` key; a non-empty burst for one key with gaps
below the quiet period yields exactly one synchronize invocation for
that directory, fired by the last event; same-key events spaced at least
the quiet period apart each produce their own invocation; and distinct
keys debounce independently. -/
theorem c5_debounce :
    (∀ (d m : Nat) (es : List ChangeEvent) (h : es ≠ []),
      (∀ e ∈ es, e.dir = d ∧ e.name = m) →
      es.Chain' (fun a b => b.time < a.time + 100) →
      debounceFires es = [es.getLast h] ∧ syncCalls es d = 1) ∧
    (∀ (d m : Nat) (es : List ChangeEvent),
      (∀ e ∈ es, e.dir = d ∧ e.name = m) →
      es.Chain' (fun a b => a.time + 100 ≤ b.time) →
      debounceFires es = es ∧ syncCalls es d = es.length) ∧
    (∀ (d m : Nat) (es : List ChangeEvent),
      (debounceFires es).filter (fun e => e.dir == d && e.name == m) =
        debounceFires (es.filter fun e => e.dir == d && e.name == m)) := by
  refine ⟨?_, ?_, fun d m es => debounceFires_filter_key d m es⟩
  · intro d m es h hkey hchain
    have hb := debounceFires_burst d m es h hkey hchain
    refine ⟨hb, ?_⟩
    rw [syncCalls, hb]
    have hlast := hkey (es.getLast h) (List.getLast_mem h)
    simp [hlast.1]
  · intro d m es hkey hchain
    have hs := debounceFires_spaced es (pairwise_of_chain_gap es hchain)
    refine ⟨hs, ?_⟩
    rw [syncCalls, hs]
    have : es.filter (fun e => e.dir == d) = es :=
      List.filter_eq_self.mpr (fun a ha => by simp [(hkey a ha).1])
    rw [this]

/-- Witness for claim C5: a two-event burst 50 ms apart fires once (at
the last event), and two events 200 ms apart fire twice. -/
theorem c5_debounce_witness :
    debounceFires [⟨0, 0, 0⟩, ⟨50, 0, 0⟩] = [⟨50, 0, 0⟩] ∧
    syncCalls [⟨0, 0, 0⟩, ⟨50, 0, 0⟩] 0 = 1 ∧
    debounceFires [⟨0, 0, 0⟩, ⟨200, 0, 0⟩] = [⟨0, 0, 0⟩, ⟨200, 0, 0⟩] ∧
    syncCalls [⟨0, 0, 0⟩, ⟨200, 0, 0⟩] 0 = 2 := by
  have hA := c5_debounce.1 0 0 [⟨0, 0, 0⟩, ⟨50, 0, 0⟩] (by decide)
    (by decide)
    (by rw [List.chain'_cons]
        exact ⟨by decide, List.chain'_singleton _⟩)
  have hB := c5_debounce.2.1 0 0 [⟨0, 0, 0⟩, ⟨200, 0, 0⟩] (by decide)
    (by rw [List.chain'_cons]
        exact ⟨by decide, List.chain'_singleton _⟩)
  exact ⟨hA.1, hA.2, hB.1, hB.2⟩

end PnpmSync
